import Mathlib

/-!
Shallow embedding of `hbfmodules/uart/baudrates.py` (class `Baudrate`),
the UART baudrate-detection module of hydrabus-framework/hbfmodules.baudrates.
The older revision `hbfmodules/uart/baudrate.py` has the same classification,
confirmation and loop structure; where the two differ (the miniterm branch
re-inits in `baudrates.py`) the newer file is the one embedded.

Python values relevant to classification are either one-character `str`
objects (a successful `tmp.decode('utf-8')` of the received byte) or raw
one-byte `bytes` objects (when the decode raises `UnicodeDecodeError`,
i.e. for bytes >= 0x80).  Python never equates a `str` with a `bytes`,
so the embedding keeps the two apart in `PyVal`.

I/O is modelled by a finite script of read results consumed by
`self.hb_serial.read(1)` inside the candidate read loop, and by a trace of
effects the module performs on its collaborators (baud configuration,
bridge activation, writes, button waits, the final `exit_bbio`/`close`).
A `KeyboardInterrupt` raised during a blocking read is a script event that
propagates like the Python exception (no handler exists in the module).
When the script runs out the model stops with the artificial outcome
`stalled`; the Python loop would simply keep reading.
-/

namespace BaudMod

/-- A Python value as it appears in the classification code: a one-character
string (code point `c`) or a one-byte bytes object. -/
inductive PyVal where
  | str (c : Nat)
  | bytes (b : Nat)
deriving DecidableEq, Repr

/-- Result of one `read(1)` call on the scripted link: a byte arrived, the
read timed out (empty result), or the user interrupts during the read. -/
inductive ReadResult where
  | byte (b : Nat)
  | timeout
  | interrupt
deriving DecidableEq, Repr

/-- The four module-level counters of `baudrate_detect`. -/
structure Window where
  count : Nat
  whitespace : Nat
  punctuation : Nat
  vowels : Nat
deriving DecidableEq, Repr

/-- All four counters zero, the state the counters are initialized to. -/
def zeroW : Window := ⟨0, 0, 0, 0⟩

/-- Observable actions on the adapter/link, in the order performed. -/
inductive Effect where
  | candStart (rate : Nat) (w : Window)
  | setBaud (rate : Nat) (ok : Bool)
  | bridge
  | write (bs : List Nat)
  | readDiscard (n : Nat)
  | waitUbtn
  | found (rate : Nat)
  | close
  | miniterm
  | initHb
  | exitBbio
deriving DecidableEq, Repr

/-- How one candidate's `while True` read loop ended. -/
inductive LoopStatus where
  | confirmedRate
  | failedRate
  | interrupted
  | stalled
deriving DecidableEq, Repr

/-- Result of one candidate's read loop: its status, the counter state it
leaves behind, the unconsumed script, and the effects it performed. -/
structure LoopRes where
  status : LoopStatus
  window : Window
  rest : List ReadResult
  trace : List Effect
deriving DecidableEq, Repr

/-- How `baudrate_detect` (and hence `run`) ended: a normal Python return,
a propagating interrupt, or the model's end-of-script cut. -/
inductive RunEnd where
  | normal
  | interrupted
  | stalled
deriving DecidableEq, Repr

/-- `self.vowels = ["a", "A", "e", "E", "i", "I", "o", "O", "u", "U"]`. -/
def vowelsL : List Nat := [97, 65, 101, 69, 105, 73, 111, 79, 117, 85]

/-- `self.whitespace = [" ", "\t", "\r", "\n"]`. -/
def whitespaceL : List Nat := [32, 9, 13, 10]

/-- `self.punctation = [".", ",", ":", ";", "?", "!"]` (sic). -/
def punctationL : List Nat := [46, 44, 58, 59, 63, 33]

/-- `self.control = [b'\x0e', b'\x0f', b'\xe0', b'\xfe', b'\xc0']` — these
are bytes objects, not strings. -/
def controlL : List Nat := [14, 15, 224, 254, 192]

/-- `self.baudrates = [9600, 19200, 38400, 57600, 115200]`. -/
def baudrates : List Nat := [9600, 19200, 38400, 57600, 115200]

/-- The `while c <= '~'` loop of `gen_char_list`: the one-character strings
for code points 0x20..0x7E. -/
def printable : List PyVal := (List.range' 32 95).map PyVal.str

/-- `gen_char_list`: printable strings, then the whitespace strings not
already present, then the control `bytes` objects not already present. -/
def gen_char_list : List PyVal :=
  let l1 := whitespaceL.foldl
    (fun acc c => if PyVal.str c ∈ acc then acc else acc ++ [PyVal.str c]) printable
  controlL.foldl
    (fun acc b => if PyVal.bytes b ∈ acc then acc else acc ++ [PyVal.bytes b]) l1

/-- `tmp.decode('utf-8')` on a single received byte: bytes below 0x80 decode
to the one-character string with that code point; bytes 0x80..0xFF are not
valid single-byte UTF-8, the decode raises and `byte` stays the bytes
object. -/
def decodeByte (b : Nat) : PyVal :=
  if b < 128 then PyVal.str b else PyVal.bytes b

/-- The classifier applied to a received byte: `byte in valid_characters`
after the decode attempt. -/
def validChar (b : Nat) : Bool :=
  decide (decodeByte b ∈ gen_char_list)

/-- `byte in self.whitespace` — a bytes object never equals a string. -/
def isWhitespaceV : PyVal → Bool
  | PyVal.str c => decide (c ∈ whitespaceL)
  | PyVal.bytes _ => false

/-- `byte in self.punctation`. -/
def isPunctV : PyVal → Bool
  | PyVal.str c => decide (c ∈ punctationL)
  | PyVal.bytes _ => false

/-- `byte in self.vowels`. -/
def isVowelV : PyVal → Bool
  | PyVal.str c => decide (c ∈ vowelsL)
  | PyVal.bytes _ => false

/-- The update performed on a valid character: the `if`/`elif` category
chain followed by the unconditional `count += 1`. -/
def observeValid (w : Window) (v : PyVal) : Window :=
  if isWhitespaceV v then
    { w with whitespace := w.whitespace + 1, count := w.count + 1 }
  else if isPunctV v then
    { w with punctuation := w.punctuation + 1, count := w.count + 1 }
  else if isVowelV v then
    { w with vowels := w.vowels + 1, count := w.count + 1 }
  else
    { w with count := w.count + 1 }

/-- `threshold = 25`. -/
def threshold : Nat := 25

/-- `count >= threshold and whitespace > 0 and punctuation >= 0 and
vowels > 0`, translated literally (the `punctuation >= 0` conjunct
included). -/
def confirmed (w : Window) : Bool :=
  decide (threshold ≤ w.count) && decide (0 < w.whitespace)
    && decide (0 ≤ w.punctuation) && decide (0 < w.vowels)

/-- `trigger_device`: write `b'\x0D\x0A'` then read back (discard) the two
echoed bytes. -/
def trigger_device : List Effect :=
  [Effect.write [13, 10], Effect.readDiscard 2]

/-- One candidate's `while True` read loop.  `n` is the per-candidate
`loop` trigger counter (initialized to 0 by the `for` body).  Each
iteration consumes one scripted read result; an empty script cuts the model
off with `stalled`. -/
def readLoop (trigger : Bool) : List ReadResult → Window → Nat → LoopRes
  | [], w, _ => ⟨LoopStatus.stalled, w, [], []⟩
  | ReadResult.interrupt :: rest, w, _ => ⟨LoopStatus.interrupted, w, rest, []⟩
  | ReadResult.byte b :: rest, w, n =>
    if validChar b then
      let w2 := observeValid w (decodeByte b)
      if confirmed w2 then ⟨LoopStatus.confirmedRate, w2, rest, []⟩
      else readLoop trigger rest w2 n
    else
      ⟨LoopStatus.failedRate, zeroW, rest, [Effect.waitUbtn]⟩
  | ReadResult.timeout :: rest, w, n =>
    if trigger ∧ n < 3 then
      let res := readLoop trigger rest w (n + 1)
      ⟨res.status, res.window, res.rest, trigger_device ++ res.trace⟩
    else
      ⟨LoopStatus.failedRate, w, rest, [Effect.waitUbtn]⟩

/-- The `for baudrate in self.baudrates` loop of `baudrate_detect`.
`setOk r` models whether `change_baudrate(r)` succeeds (on success it also
activates the bridge); `openM` models the user answering `Y` to the
miniterm prompt.  `Effect.candStart r w` is the observation hook marking
the start of candidate `r`'s iteration with counter state `w`.
On `change_baudrate` failure the source `break`s out of the `for` loop
(the function returns normally); on a confirmed rate only the `while`
loop is exited and the `for` loop continues with the carried counters. -/
def detectLoop (trigger openM : Bool) (setOk : Nat → Bool) :
    List Nat → List ReadResult → Window → RunEnd × List Effect
  | [], _, _ => (RunEnd.normal, [])
  | r :: rest, script, w =>
    if setOk r then
      match readLoop trigger script w 0 with
      | ⟨LoopStatus.confirmedRate, w2, rest2, tr⟩ =>
        let mid := if openM then
            [Effect.found r, Effect.close, Effect.miniterm, Effect.initHb, Effect.waitUbtn]
          else [Effect.found r]
        let p := detectLoop trigger openM setOk rest rest2 w2
        (p.1, [Effect.candStart r w, Effect.setBaud r true, Effect.bridge] ++ tr ++ mid ++ p.2)
      | ⟨LoopStatus.failedRate, w2, rest2, tr⟩ =>
        let p := detectLoop trigger openM setOk rest rest2 w2
        (p.1, [Effect.candStart r w, Effect.setBaud r true, Effect.bridge] ++ tr ++ p.2)
      | ⟨LoopStatus.interrupted, _, _, tr⟩ =>
        (RunEnd.interrupted, [Effect.candStart r w, Effect.setBaud r true, Effect.bridge] ++ tr)
      | ⟨LoopStatus.stalled, _, _, tr⟩ =>
        (RunEnd.stalled, [Effect.candStart r w, Effect.setBaud r true, Effect.bridge] ++ tr)
    else
      (RunEnd.normal, [Effect.candStart r w, Effect.setBaud r false, Effect.waitUbtn])

/-- `baudrate_detect`: counters start at zero and the fixed candidate table
is scanned in order. -/
def baudrate_detect (trigger openM : Bool) (setOk : Nat → Bool)
    (script : List ReadResult) : RunEnd × List Effect :=
  detectLoop trigger openM setOk baudrates script zeroW

/-- `run`: on a successful `init_hb` it calls `baudrate_detect` and — only
when that call returns normally — performs `exit_bbio()` and `close()`.
There is no `try`/`finally`: a propagating exception (interrupt) skips the
cleanup lines, and the model's `stalled` cut is likewise propagated.  On
`init_hb` failure it logs and returns without touching the adapter. -/
def run (initOk trigger openM : Bool) (setOk : Nat → Bool)
    (script : List ReadResult) : RunEnd × List Effect :=
  if initOk then
    let p := baudrate_detect trigger openM setOk script
    match p.1 with
    | RunEnd.normal => (RunEnd.normal, p.2 ++ [Effect.exitBbio, Effect.close])
    | e => (e, p.2)
  else
    (RunEnd.normal, [])

/-- Number of `exit_bbio` resets in a trace. -/
def countExit (tr : List Effect) : Nat :=
  tr.countP fun e => decide (e = Effect.exitBbio)

/-- Number of device triggers (writes of `b'\x0D\x0A'`) in a trace. -/
def countTrig (tr : List Effect) : Nat :=
  tr.countP fun e => decide (e = Effect.write [13, 10])

/-- The rates passed to `change_baudrate`, in order of configuration. -/
def setBaudRates (tr : List Effect) : List Nat :=
  tr.filterMap fun e =>
    match e with
    | Effect.setBaud r _ => some r
    | _ => none

/-- The counter-consistency invariant of claim C10. -/
def winInv (w : Window) : Prop :=
  w.whitespace + w.punctuation + w.vowels ≤ w.count

instance : DecidablePred winInv := fun w => by
  unfold winInv; infer_instance

/-- The scripted stream for the first-confirmation scenario: 24 times the
vowel `a`, one space (confirming 9600 on the 25th valid byte), then one
more `a`. -/
def confirmScript : List ReadResult :=
  List.replicate 24 (ReadResult.byte 97) ++ [ReadResult.byte 32, ReadResult.byte 97]

end BaudMod

namespace BaudMod

set_option maxRecDepth 100000 in
/-- C2: the adapter control bytes 0x0E and 0x0F are appended to
`gen_char_list` as Python bytes objects, but a received byte below 0x80
decodes to a one-character string, which never equals a bytes object — so
0x0E and 0x0F are classified invalid, contradicting the claim.  The full
characterization: a received byte is accepted iff it is printable
0x20..0x7E, one of the whitespace bytes 0x09/0x0A/0x0D (0x20 included), or
one of the undecodable control bytes 0xE0, 0xFE, 0xC0. -/
theorem control_bytes_misclassified :
    validChar 14 = false ∧ validChar 15 = false ∧
    PyVal.bytes 14 ∈ gen_char_list ∧ PyVal.bytes 15 ∈ gen_char_list ∧
    (∀ b : Fin 256, validChar b.val = true ↔
      ((32 ≤ b.val ∧ b.val ≤ 126) ∨ b.val = 9 ∨ b.val = 10 ∨ b.val = 13 ∨
        b.val = 224 ∨ b.val = 254 ∨ b.val = 192)) := by
  refine ⟨by decide, by decide, by decide, by decide, by decide⟩

/-- C3: the confirmation test is exactly `count >= 25`, `whitespace >= 1`
and `vowels >= 1`; the window `(25, 1, 0, 1)` passes; the punctuation
counter imposes no minimum (changing it never changes the verdict). -/
theorem confirmed_iff :
    (∀ w : Window,
      confirmed w = true ↔ (25 ≤ w.count ∧ 1 ≤ w.whitespace ∧ 1 ≤ w.vowels)) ∧
    confirmed ⟨25, 1, 0, 1⟩ = true ∧
    (∀ (w : Window) (p : Nat), confirmed { w with punctuation := p } = confirmed w) := by
  refine ⟨?_, by decide, ?_⟩
  · intro w
    simp [confirmed, threshold]
    omega
  · intro w p
    simp [confirmed]

/-- C4: with every rate settable and the stream `'a' * 24 ++ " a"`, the
code announces 9600 as found, yet then configures 19200, keeps reading,
and — the counters never having been reset — announces 19200 as found
after a single further byte, and configures 38400 as well.  The scan does
continue past the first qualifying rate. -/
theorem found_does_not_stop_scan :
    Effect.found 9600 ∈ (baudrate_detect false false (fun _ => true) confirmScript).2 ∧
    Effect.setBaud 19200 true ∈ (baudrate_detect false false (fun _ => true) confirmScript).2 ∧
    Effect.found 19200 ∈ (baudrate_detect false false (fun _ => true) confirmScript).2 ∧
    Effect.setBaud 38400 true ∈ (baudrate_detect false false (fun _ => true) confirmScript).2 := by
  decide

/-- C1 counterexample: with a working adapter and a user interrupt during
the first read, `run` propagates the interrupt and performs no
`exit_bbio` reset — cleanup is not invoked on the cancellation path. -/
theorem run_interrupt_skips_cleanup :
    (run true false false (fun _ => true) [ReadResult.interrupt]).1 =
      RunEnd.interrupted ∧
    countExit (run true false false (fun _ => true) [ReadResult.interrupt]).2 = 0 ∧
    ¬ countExit (run true false false (fun _ => true) [ReadResult.interrupt]).2 = 1 := by
  decide

/-- C5 counterexample: when `change_baudrate` fails on the very first
candidate, the trace is only the failed attempt and the button wait — the
second candidate 19200 is never started nor configured: the scan aborts
instead of advancing. -/
theorem set_baud_failure_aborts_scan_cex :
    (baudrate_detect false false (fun _ => false) []).2 =
      [Effect.candStart 9600 zeroW, Effect.setBaud 9600 false, Effect.waitUbtn] ∧
    (∀ w : Window,
      Effect.candStart 19200 w ∉ (baudrate_detect false false (fun _ => false) []).2) ∧
    (∀ ok : Bool,
      Effect.setBaud 19200 ok ∉ (baudrate_detect false false (fun _ => false) []).2) := by
  have e : (baudrate_detect false false (fun _ => false) []).2 =
      [Effect.candStart 9600 zeroW, Effect.setBaud 9600 false, Effect.waitUbtn] := by
    decide
  refine ⟨e, ?_, ?_⟩
  · intro w h
    rw [e] at h
    simp [Effect.candStart.injEq] at h
  · intro ok h
    rw [e] at h
    simp [Effect.setBaud.injEq] at h

/-- C6 counterexample: candidate 9600 reads one vowel and then times out
(triggering off); its loop ends without resetting the counters, and
candidate 19200's loop begins with the carried window `(1, 0, 0, 1)`,
not with all counters zero. -/
theorem window_not_reset_new_candidate_cex :
    Effect.candStart 19200 ⟨1, 0, 0, 1⟩ ∈
      (detectLoop false false (fun _ => true) [9600, 19200]
        [ReadResult.byte 97, ReadResult.timeout] zeroW).2 ∧
    (⟨1, 0, 0, 1⟩ : Window) ≠ zeroW := by
  decide

end BaudMod

namespace BaudMod

/-- Helper: a candidate's read loop only waits for the button, writes the
trigger sequence, or discards the trigger echo — it performs no baud
configuration, no candidate start and no console reset. -/
theorem readLoop_trace_mem (trigger : Bool) :
    ∀ (script : List ReadResult) (w : Window) (n : Nat) (e : Effect),
      e ∈ (readLoop trigger script w n).trace →
        e = Effect.waitUbtn ∨ e = Effect.write [13, 10] ∨ e = Effect.readDiscard 2 := by
  intro script
  induction script with
  | nil => intro w n e he; simp [readLoop] at he
  | cons r rest ih =>
    intro w n e he
    cases r with
    | interrupt => simp [readLoop] at he
    | byte b =>
      by_cases hv : validChar b = true
      · by_cases hc : confirmed (observeValid w (decodeByte b)) = true
        · simp [readLoop, hv, hc] at he
        · simp only [readLoop, hv, if_true, hc, if_false, Bool.false_eq_true] at he
          exact ih _ _ _ he
      · simp [readLoop, hv] at he
        simp [he]
    | timeout =>
      by_cases ht : trigger = true ∧ n < 3
      · simp only [readLoop, if_pos ht] at he
        simp only [trigger_device, List.cons_append, List.nil_append,
          List.mem_cons] at he
        rcases he with h | h | h
        · exact Or.inr (Or.inl h)
        · exact Or.inr (Or.inr h)
        · exact ih _ _ _ h
      · simp [readLoop, if_neg ht] at he
        simp [he]

/-- Helper: the read loop never emits an `exit_bbio`. -/
theorem readLoop_countExit (trigger : Bool) (script : List ReadResult)
    (w : Window) (n : Nat) :
    countExit (readLoop trigger script w n).trace = 0 := by
  unfold countExit
  rw [List.countP_eq_zero]
  intro e he
  rcases readLoop_trace_mem trigger script w n e he with h | h | h <;> simp [h]

/-- Helper: the read loop configures no baudrate. -/
theorem readLoop_setBaudRates (trigger : Bool) (script : List ReadResult)
    (w : Window) (n : Nat) :
    setBaudRates (readLoop trigger script w n).trace = [] := by
  unfold setBaudRates
  rw [List.filterMap_eq_nil_iff]
  intro e he
  rcases readLoop_trace_mem trigger script w n e he with h | h | h <;> simp [h]

/-- Helper: the read loop emits no candidate-start marker. -/
theorem readLoop_no_candStart (trigger : Bool) (script : List ReadResult)
    (w : Window) (n : Nat) (r : Nat) (w2 : Window) :
    Effect.candStart r w2 ∉ (readLoop trigger script w n).trace := by
  intro he
  rcases readLoop_trace_mem trigger script w n _ he with h | h | h <;> simp at h

/-- Helper: one observation of a valid character adds one to `count` and
preserves the counter-consistency invariant. -/
theorem observeValid_inv (w : Window) (v : PyVal) (h : winInv w) :
    winInv (observeValid w v) := by
  unfold winInv at *
  unfold observeValid
  split
  · simp; omega
  · split
    · simp; omega
    · split
      · simp; omega
      · simp; omega

/-- Helper: the read loop preserves the counter-consistency invariant. -/
theorem readLoop_inv (trigger : Bool) :
    ∀ (script : List ReadResult) (w : Window) (n : Nat),
      winInv w → winInv (readLoop trigger script w n).window := by
  intro script
  induction script with
  | nil => intro w n h; simpa [readLoop] using h
  | cons r rest ih =>
    intro w n h
    cases r with
    | interrupt => simpa [readLoop] using h
    | byte b =>
      by_cases hv : validChar b = true
      · by_cases hc : confirmed (observeValid w (decodeByte b)) = true
        · simpa [readLoop, hv, hc] using observeValid_inv w _ h
        · simp only [readLoop, hv, if_true, hc, if_false, Bool.false_eq_true]
          exact ih _ _ (observeValid_inv w _ h)
      · simp [readLoop, hv, zeroW, winInv]
    | timeout =>
      by_cases ht : trigger = true ∧ n < 3
      · simp only [readLoop, if_pos ht]
        exact ih _ _ h
      · simpa [readLoop, if_neg ht] using h

/-- Helper: the trigger is sent at most `3 - n` more times once the
per-candidate trigger counter has reached `n`. -/
theorem readLoop_countTrig (trigger : Bool) :
    ∀ (script : List ReadResult) (w : Window) (n : Nat),
      countTrig (readLoop trigger script w n).trace ≤ 3 - n := by
  intro script
  induction script with
  | nil => intro w n; simp [readLoop, countTrig]
  | cons r rest ih =>
    intro w n
    cases r with
    | interrupt => simp [readLoop, countTrig]
    | byte b =>
      by_cases hv : validChar b = true
      · by_cases hc : confirmed (observeValid w (decodeByte b)) = true
        · simp [readLoop, hv, hc, countTrig]
        · simp only [readLoop, hv, if_true, hc, if_false, Bool.false_eq_true]
          exact ih _ _
      · simp [readLoop, hv, countTrig]
    | timeout =>
      by_cases ht : trigger = true ∧ n < 3
      · simp only [readLoop, if_pos ht]
        have hih := ih w (n + 1)
        have h2 : n < 3 := ht.2
        simp only [countTrig, trigger_device, List.countP_append] at hih ⊢
        have hc2 : List.countP (fun e => decide (e = Effect.write [13, 10]))
            [Effect.write [13, 10], Effect.readDiscard 2] = 1 := by decide
        rw [hc2]
        omega
      · simp [readLoop, if_neg ht, countTrig]

end BaudMod

namespace BaudMod

/-- Helper: the configured-rates projection distributes over trace
concatenation. -/
theorem setBaudRates_append (l1 l2 : List Effect) :
    setBaudRates (l1 ++ l2) = setBaudRates l1 ++ setBaudRates l2 := by
  simp [setBaudRates, List.filterMap_append]

/-- Helper: the candidate loop never emits the console reset; only `run`
does, after `baudrate_detect` returns normally. -/
theorem detectLoop_no_exit (trigger openM : Bool) (setOk : Nat → Bool) :
    ∀ (rs : List Nat) (script : List ReadResult) (w : Window),
      Effect.exitBbio ∉ (detectLoop trigger openM setOk rs script w).2 := by
  intro rs
  induction rs with
  | nil => intro script w; simp [detectLoop]
  | cons r rest ih =>
    intro script w
    rcases hres : readLoop trigger script w 0 with ⟨st, w3, rest3, tr⟩
    have htr : Effect.exitBbio ∉ tr := by
      intro he
      rcases readLoop_trace_mem trigger script w 0 _ (by rw [hres]; exact he)
        with h2 | h2 | h2 <;> simp at h2
    by_cases hs : setOk r = true
    · cases st
      · intro h
        cases openM <;>
          · simp only [detectLoop, hs, if_true, hres] at h
            simp [List.mem_append] at h
            rcases h with h | h
            · exact htr h
            · exact ih _ _ h
      · intro h
        simp only [detectLoop, hs, if_true, hres] at h
        simp [List.mem_append] at h
        rcases h with h | h
        · exact htr h
        · exact ih _ _ h
      · intro h
        simp only [detectLoop, hs, if_true, hres] at h
        simp [List.mem_append] at h
        exact htr h
      · intro h
        simp only [detectLoop, hs, if_true, hres] at h
        simp [List.mem_append] at h
        exact htr h
    · intro h
      simp [detectLoop, hs] at h

/-- Helper: `countExit` of a scan trace is zero. -/
theorem detectLoop_countExit (trigger openM : Bool) (setOk : Nat → Bool)
    (rs : List Nat) (script : List ReadResult) (w : Window) :
    countExit (detectLoop trigger openM setOk rs script w).2 = 0 := by
  unfold countExit
  rw [List.countP_eq_zero]
  intro e he
  intro hc
  rw [decide_eq_true_eq] at hc
  subst hc
  exact detectLoop_no_exit trigger openM setOk rs script w he

end BaudMod

namespace BaudMod

/-- Helper: the rates handed to `change_baudrate` during a scan of the
candidate list `rs` form a sublist of `rs`: each candidate is attempted at
most once, in list order, and none out of `rs` is ever attempted. -/
theorem detectLoop_setBaudRates_sublist (trigger openM : Bool) (setOk : Nat → Bool) :
    ∀ (rs : List Nat) (script : List ReadResult) (w : Window),
      (setBaudRates (detectLoop trigger openM setOk rs script w).2).Sublist rs := by
  intro rs
  induction rs with
  | nil => intro script w; simp [detectLoop, setBaudRates]
  | cons r rest ih =>
    intro script w
    rcases hres : readLoop trigger script w 0 with ⟨st, w3, rest3, tr⟩
    have htr : setBaudRates tr = [] := by
      have h := readLoop_setBaudRates trigger script w 0
      rw [hres] at h
      exact h
    by_cases hs : setOk r = true
    · cases st
      · cases openM <;>
          · simp only [detectLoop, hs, if_true, hres, Bool.false_eq_true, if_false]
            simp only [setBaudRates_append, htr]
            simpa [setBaudRates, List.filterMap_cons] using
              List.Sublist.cons₂ r (ih rest3 w3)
      · simp only [detectLoop, hs, if_true, hres]
        simp only [setBaudRates_append, htr]
        simpa [setBaudRates, List.filterMap_cons] using
          List.Sublist.cons₂ r (ih rest3 w3)
      · simp only [detectLoop, hs, if_true, hres]
        simp only [setBaudRates_append, htr]
        simp [setBaudRates, List.filterMap_cons]
      · simp only [detectLoop, hs, if_true, hres]
        simp only [setBaudRates_append, htr]
        simp [setBaudRates, List.filterMap_cons]
    · simp [detectLoop, hs, setBaudRates, List.filterMap_cons]

end BaudMod

namespace BaudMod

/-- Helper: every candidate iteration opens with its start marker carrying
the counter state the iteration begins with. -/
theorem detectLoop_candStart_head (trigger openM : Bool) (setOk : Nat → Bool)
    (r : Nat) (rest : List Nat) (script : List ReadResult) (w : Window) :
    Effect.candStart r w ∈ (detectLoop trigger openM setOk (r :: rest) script w).2 := by
  rcases hres : readLoop trigger script w 0 with ⟨st, w3, rest3, tr⟩
  by_cases hs : setOk r = true
  · cases st <;> simp [detectLoop, hs, hres]
  · simp [detectLoop, hs]

/-- Helper: every counter state recorded at a candidate start satisfies the
consistency invariant, provided the incoming state does. -/
theorem detectLoop_candStart_inv (trigger openM : Bool) (setOk : Nat → Bool) :
    ∀ (rs : List Nat) (script : List ReadResult) (w : Window),
      winInv w →
        ∀ (r : Nat) (w2 : Window),
          Effect.candStart r w2 ∈ (detectLoop trigger openM setOk rs script w).2 →
            winInv w2 := by
  intro rs
  induction rs with
  | nil => intro script w hw r w2 hmem; simp [detectLoop] at hmem
  | cons r rest ih =>
    intro script w hw r2 w2 hmem
    rcases hres : readLoop trigger script w 0 with ⟨st, w3, rest3, tr⟩
    have hw3 : winInv w3 := by
      have h := readLoop_inv trigger script w 0 hw
      rw [hres] at h
      exact h
    have htr : Effect.candStart r2 w2 ∉ tr := by
      have h := readLoop_no_candStart trigger script w 0 r2 w2
      rw [hres] at h
      exact h
    by_cases hs : setOk r = true
    · cases st
      · cases openM <;>
          · simp only [detectLoop, hs, if_true, hres, Bool.false_eq_true, if_false] at hmem
            simp [List.mem_append, List.mem_cons] at hmem
            rcases hmem with ⟨h1, h2⟩ | h | h
            · subst h2; exact hw
            · exact absurd h htr
            · exact ih _ _ hw3 _ _ h
      · simp only [detectLoop, hs, if_true, hres] at hmem
        simp [List.mem_append, List.mem_cons] at hmem
        rcases hmem with ⟨h1, h2⟩ | h | h
        · subst h2; exact hw
        · exact absurd h htr
        · exact ih _ _ hw3 _ _ h
      · simp only [detectLoop, hs, if_true, hres] at hmem
        simp [List.mem_append, List.mem_cons] at hmem
        rcases hmem with ⟨h1, h2⟩ | h
        · subst h2; exact hw
        · exact absurd h htr
      · simp only [detectLoop, hs, if_true, hres] at hmem
        simp [List.mem_append, List.mem_cons] at hmem
        rcases hmem with ⟨h1, h2⟩ | h
        · subst h2; exact hw
        · exact absurd h htr
    · simp [detectLoop, hs] at hmem
      rcases hmem with ⟨h1, h2⟩
      subst h2; exact hw

end BaudMod

namespace BaudMod

/-- C1 (amended): the console reset (`exit_bbio` + `close`) runs exactly
once when `init_hb` succeeds and `baudrate_detect` returns normally
(confirmation, exhaustion, or the abort after a failed baud change), and
zero times otherwise — `run` has no `try`/`finally`, so a propagating
interrupt or fault skips the cleanup, and the `init_hb`-failure path never
reaches it. -/
theorem run_cleanup_count (initOk trigger openM : Bool) (setOk : Nat → Bool)
    (script : List ReadResult) :
    countExit (run initOk trigger openM setOk script).2 =
      if initOk = true ∧ (baudrate_detect trigger openM setOk script).1 = RunEnd.normal
      then 1 else 0 := by
  rcases hp : baudrate_detect trigger openM setOk script with ⟨e, tr⟩
  have h0 : countExit tr = 0 := by
    have h := detectLoop_countExit trigger openM setOk baudrates script zeroW
    have h2 : (baudrate_detect trigger openM setOk script).2 = tr := by rw [hp]
    unfold baudrate_detect at h2
    rw [h2] at h
    exact h
  simp only [countExit] at h0
  cases initOk
  · simp [run, countExit]
  · cases e <;>
      simp [run, hp, countExit, List.countP_append, List.countP_cons, h0]

/-- C5 (amended): when `change_baudrate` fails on a candidate, the module
asks for the button press and then leaves the `for` loop entirely — the
scan ends normally without attempting any further candidate, instead of
advancing to the next one. -/
theorem set_baud_failure_aborts_scan (trigger openM : Bool) (setOk : Nat → Bool)
    (r : Nat) (rest : List Nat) (script : List ReadResult) (w : Window)
    (h : setOk r = false) :
    detectLoop trigger openM setOk (r :: rest) script w =
      (RunEnd.normal,
        [Effect.candStart r w, Effect.setBaud r false, Effect.waitUbtn]) := by
  have h2 : ¬ setOk r = true := by simp [h]
  simp [detectLoop, h2, h]

/-- C5 witness: a concrete aborted scan. -/
theorem set_baud_failure_aborts_scan_witness :
    detectLoop true true (fun _ => false) (9600 :: [19200, 38400, 57600, 115200])
      [] zeroW =
      (RunEnd.normal,
        [Effect.candStart 9600 zeroW, Effect.setBaud 9600 false, Effect.waitUbtn]) :=
  set_baud_failure_aborts_scan true true (fun _ => false) 9600
    [19200, 38400, 57600, 115200] [] zeroW rfl

/-- C6 (amended): the counters are reset to zero exactly when an invalid
byte is observed; they are not reset when a new candidate rate begins —
after a candidate whose loop ends by timeout (triggering off), the next
candidate's iteration starts with the very same window. -/
theorem window_reset_only_on_invalid :
    (∀ (trigger : Bool) (b : Nat) (w : Window) (rest : List ReadResult) (n : Nat),
      validChar b = false →
        (readLoop trigger (ReadResult.byte b :: rest) w n).window = zeroW) ∧
    (∀ (openM : Bool) (setOk : Nat → Bool) (r r2 : Nat) (rest : List Nat)
        (script : List ReadResult) (w : Window),
      setOk r = true →
        Effect.candStart r2 w ∈
          (detectLoop false openM setOk (r :: r2 :: rest)
            (ReadResult.timeout :: script) w).2) := by
  constructor
  · intro trigger b w rest n hb
    simp [readLoop, hb]
  · intro openM setOk r r2 rest script w hr
    have hrl : readLoop false (ReadResult.timeout :: script) w 0 =
        ⟨LoopStatus.failedRate, w, script, [Effect.waitUbtn]⟩ := by
      simp [readLoop]
    simp only [detectLoop, hr, if_true, hrl]
    exact List.mem_append_right _
      (detectLoop_candStart_head false openM setOk r2 rest script w)

/-- C6 witness: a nonzero window survives a timeout-ended candidate and a
garbage byte zeroes a window. -/
theorem window_reset_only_on_invalid_witness :
    (readLoop true (ReadResult.byte 200 :: []) ⟨7, 2, 1, 3⟩ 0).window = zeroW ∧
    Effect.candStart 19200 ⟨7, 2, 1, 3⟩ ∈
      (detectLoop false false (fun _ => true) (9600 :: 19200 :: [])
        (ReadResult.timeout :: []) ⟨7, 2, 1, 3⟩).2 :=
  ⟨window_reset_only_on_invalid.1 true 200 ⟨7, 2, 1, 3⟩ [] 0 (by decide),
   window_reset_only_on_invalid.2 false (fun _ => true) 9600 19200 [] []
     ⟨7, 2, 1, 3⟩ rfl⟩

/-- C7: an invalid byte zeroes all four counters irrespective of prior
accumulation and ends the candidate's read loop as a failed rate (after
the button wait); the scan then moves on, and the next candidate's
iteration starts with the zeroed window. -/
theorem invalid_byte_resets_and_advances :
    (∀ (trigger : Bool) (b : Nat) (w : Window) (rest : List ReadResult) (n : Nat),
      validChar b = false →
        readLoop trigger (ReadResult.byte b :: rest) w n =
          ⟨LoopStatus.failedRate, zeroW, rest, [Effect.waitUbtn]⟩) ∧
    (∀ (trigger openM : Bool) (setOk : Nat → Bool) (b r r2 : Nat)
        (rest : List Nat) (script : List ReadResult) (w : Window),
      validChar b = false → setOk r = true →
        Effect.candStart r2 zeroW ∈
          (detectLoop trigger openM setOk (r :: r2 :: rest)
            (ReadResult.byte b :: script) w).2) := by
  constructor
  · intro trigger b w rest n hb
    simp [readLoop, hb]
  · intro trigger openM setOk b r r2 rest script w hb hr
    have hrl : readLoop trigger (ReadResult.byte b :: script) w 0 =
        ⟨LoopStatus.failedRate, zeroW, script, [Effect.waitUbtn]⟩ := by
      simp [readLoop, hb]
    simp only [detectLoop, hr, if_true, hrl]
    exact List.mem_append_right _
      (detectLoop_candStart_head trigger openM setOk r2 rest script zeroW)

/-- C7 witness: a concrete invalid byte (0x00) with a loaded window. -/
theorem invalid_byte_resets_and_advances_witness :
    readLoop false (ReadResult.byte 0 :: []) ⟨9, 3, 3, 3⟩ 0 =
      ⟨LoopStatus.failedRate, zeroW, [], [Effect.waitUbtn]⟩ ∧
    Effect.candStart 19200 zeroW ∈
      (detectLoop false false (fun _ => true) (9600 :: 19200 :: [])
        (ReadResult.byte 0 :: []) ⟨9, 3, 3, 3⟩).2 :=
  ⟨invalid_byte_resets_and_advances.1 false 0 ⟨9, 3, 3, 3⟩ [] 0 (by decide),
   invalid_byte_resets_and_advances.2 false false (fun _ => true) 0 9600 19200
     [] [] ⟨9, 3, 3, 3⟩ (by decide) rfl⟩

/-- C8: the candidate table is exactly `[9600, 19200, 38400, 57600,
115200]`, strictly ascending, and in every run the rates handed to
`change_baudrate` form a duplicate-free sublist of that table — no rate is
ever revisited. -/
theorem scan_plan_fixed_no_revisit :
    baudrates = [9600, 19200, 38400, 57600, 115200] ∧
    List.Chain' (· < ·) baudrates ∧
    (∀ (trigger openM : Bool) (setOk : Nat → Bool) (script : List ReadResult),
      (setBaudRates (baudrate_detect trigger openM setOk script).2).Sublist baudrates ∧
      (setBaudRates (baudrate_detect trigger openM setOk script).2).Nodup) := by
  refine ⟨rfl, by simp [baudrates, List.chain'_cons], ?_⟩
  intro trigger openM setOk script
  have hs := detectLoop_setBaudRates_sublist trigger openM setOk baudrates script zeroW
  have hs2 : (setBaudRates (baudrate_detect trigger openM setOk script).2).Sublist
      baudrates := by
    unfold baudrate_detect
    exact hs
  have hnd : baudrates.Nodup := by decide
  exact ⟨hs2, List.Nodup.sublist hs2 hnd⟩

/-- C9: at most 3 device triggers are sent per candidate (the per-candidate
counter starts at 0 and the timeout branch requires it below 3); each
trigger writes exactly the two bytes 0x0D 0x0A and discards the 2 echoed
bytes; once 3 triggers have been spent, the next timeout fails the rate. -/
theorem trigger_bound_and_bytes :
    trigger_device = [Effect.write [13, 10], Effect.readDiscard 2] ∧
    (∀ (trigger : Bool) (script : List ReadResult) (w : Window),
      countTrig (readLoop trigger script w 0).trace ≤ 3) ∧
    (∀ (rest : List ReadResult) (w : Window),
      readLoop true (ReadResult.timeout :: rest) w 3 =
        ⟨LoopStatus.failedRate, w, rest, [Effect.waitUbtn]⟩) := by
  refine ⟨rfl, ?_, ?_⟩
  · intro trigger script w
    simpa using readLoop_countTrig trigger script w 0
  · intro rest w
    simp [readLoop]

/-- C10: observing a valid character adds exactly one to `count` and at
most one to the category counters (the `elif` chain makes the categories
mutually exclusive), so `whitespace + punctuation + vowels <= count` is
preserved by every observation, by every reset, and holds at the start of
every reachable candidate iteration of a run. -/
theorem window_inv_reachable :
    (∀ (w : Window) (v : PyVal), (observeValid w v).count = w.count + 1) ∧
    (∀ (w : Window) (v : PyVal),
      (observeValid w v).whitespace + (observeValid w v).punctuation +
          (observeValid w v).vowels ≤
        w.whitespace + w.punctuation + w.vowels + 1) ∧
    (∀ (w : Window) (v : PyVal), winInv w → winInv (observeValid w v)) ∧
    (∀ (trigger : Bool) (script : List ReadResult) (w : Window) (n : Nat),
      winInv w → winInv (readLoop trigger script w n).window) ∧
    (∀ (trigger openM : Bool) (setOk : Nat → Bool) (script : List ReadResult)
        (r : Nat) (w2 : Window),
      Effect.candStart r w2 ∈ (baudrate_detect trigger openM setOk script).2 →
        winInv w2) := by
  refine ⟨?_, ?_, ?_, ?_, ?_⟩
  · intro w v
    unfold observeValid
    split
    · rfl
    · split
      · rfl
      · split
        · rfl
        · rfl
  · intro w v
    unfold observeValid
    split
    · simp
      omega
    · split
      · simp
        omega
      · split
        · simp
          omega
        · simp
  · intro w v h
    exact observeValid_inv w v h
  · intro trigger script w n h
    exact readLoop_inv trigger script w n h
  · intro trigger openM setOk script r w2 hmem
    exact detectLoop_candStart_inv trigger openM setOk baudrates script zeroW
      (by decide) r w2 (by simpa [baudrate_detect] using hmem)

/-- C10 witness: the invariant facts at concrete inputs. -/
theorem window_inv_reachable_witness :
    winInv (observeValid ⟨5, 1, 1, 1⟩ (PyVal.str 97)) ∧
    winInv (readLoop true (ReadResult.byte 97 :: []) ⟨5, 1, 1, 1⟩ 0).window ∧
    winInv zeroW :=
  ⟨window_inv_reachable.2.2.1 ⟨5, 1, 1, 1⟩ (PyVal.str 97) (by decide),
   window_inv_reachable.2.2.2.1 true (ReadResult.byte 97 :: []) ⟨5, 1, 1, 1⟩ 0
     (by decide),
   window_inv_reachable.2.2.2.2 false false (fun _ => true) [] 9600 zeroW
     (by decide)⟩

end BaudMod
